import Mathlib

/-
Verification development for the Columnas bot (src/main.py).

The core pipeline of the program is embedded shallowly: Python strings are
modelled as `List Char`, machine-level hashing (hashlib.sha1) is implemented
over `Nat` with explicit reduction modulo 2^32, and the global in-memory store
`all_items` is passed explicitly.  The clock (`ahora_tz`) is passed as an
explicit `Nat` parameter.  Python's `\s` character class and `str.upper`
are modelled over the ASCII + Spanish alphabet actually used by the program.
Definitions keep the Python names where possible.
-/

set_option maxRecDepth 100000

/-- Characters of a string literal. -/
def cad (s : String) : List Char := s.data

/-- Python's whitespace class `\s` (ASCII range). -/
def esEspacio (c : Char) : Bool :=
  c == ' ' || c == '\t' || c == '\n' || c == '\r' || c == '\x0b' || c == '\x0c'

/-- The characters stripped by `limpiar`: `" \n\r\t-—·*"`. -/
def esRecortable (c : Char) : Bool :=
  c == ' ' || c == '\n' || c == '\r' || c == '\t' || c == '-' || c == '—' || c == '·' || c == '*'

/-- `listaPrefijo p s` is true when `p` is an initial segment of `s`
(Python `s.startswith(p)` at position 0). -/
def listaPrefijo : List Char → List Char → Bool
  | [], _ => true
  | _ :: _, [] => false
  | a :: as, b :: bs => a == b && listaPrefijo as bs

/-- Python substring test `pat in s`. -/
def subcadena (pat : List Char) : List Char → Bool
  | [] => listaPrefijo pat []
  | c :: rest => listaPrefijo pat (c :: rest) || subcadena pat rest

/-- Fuel-driven worker for `quitarSeq`; every step consumes at least one
character of `s`, so fuel `s.length` never runs out. -/
def quitarSeqF (pat : List Char) : Nat → List Char → List Char
  | _, [] => []
  | 0, s => s
  | fuel + 1, c :: rest =>
    if pat.isEmpty then c :: quitarSeqF pat fuel rest
    else if listaPrefijo pat (c :: rest) then quitarSeqF pat fuel ((c :: rest).drop pat.length)
    else c :: quitarSeqF pat fuel rest

/-- Python `s.replace(pat, "")`: removes every (leftmost, non-overlapping)
occurrence of `pat`.  The program only calls it with non-empty patterns
(the severity icons). -/
def quitarSeq (pat : List Char) (s : List Char) : List Char :=
  quitarSeqF pat s.length s

/-- Python `s.split(sep)` for a one-character separator. -/
def partirEn (sep : Char) : List Char → List (List Char)
  | [] => [[]]
  | c :: rest =>
    if c == sep then [] :: partirEn sep rest
    else
      match partirEn sep rest with
      | [] => [[c]]
      | h :: t => (c :: h) :: t

/-- Python `s.strip()` (whitespace only). -/
def recortaEspacios (l : List Char) : List Char :=
  ((l.dropWhile esEspacio).reverse.dropWhile esEspacio).reverse

/-- Python `s.strip(" \n\r\t-—·*")`. -/
def recortaBordes (l : List Char) : List Char :=
  ((l.dropWhile esRecortable).reverse.dropWhile esRecortable).reverse

/-- Worker for `colapsaEspacios`: the flag records whether the previous
character was whitespace (so a run contributes a single space). -/
def colapsaAux : Bool → List Char → List Char
  | _, [] => []
  | prev, c :: rest =>
    if esEspacio c then
      (if prev then colapsaAux true rest else ' ' :: colapsaAux true rest)
    else c :: colapsaAux false rest

/-- `WS.sub(" ", s)`: collapse every maximal run of whitespace to one space. -/
def colapsaEspacios (l : List Char) : List Char := colapsaAux false l

/-- `limpiar` from main.py: strip the border characters, then collapse
whitespace runs. -/
def limpiar (s : List Char) : List Char := colapsaEspacios (recortaBordes s)

/-- Python `str.upper` over the alphabet used by this program
(ASCII letters plus the Spanish lowercase vowels/ñ/ü). -/
def mayusChar (c : Char) : Char :=
  if 'a' ≤ c ∧ c ≤ 'z' then Char.ofNat (c.toNat - 32)
  else if c == 'á' then 'Á' else if c == 'é' then 'É' else if c == 'í' then 'Í'
  else if c == 'ó' then 'Ó' else if c == 'ú' then 'Ú' else if c == 'ü' then 'Ü'
  else if c == 'ñ' then 'Ñ' else c

/-- Python `str.lower` over the same alphabet (used by `str.title`). -/
def minusChar (c : Char) : Char :=
  if 'A' ≤ c ∧ c ≤ 'Z' then Char.ofNat (c.toNat + 32)
  else if c == 'Á' then 'á' else if c == 'É' then 'é' else if c == 'Í' then 'í'
  else if c == 'Ó' then 'ó' else if c == 'Ú' then 'ú' else if c == 'Ü' then 'ü'
  else if c == 'Ñ' then 'ñ' else c

/-- `_sin_acentos` from main.py (single character). -/
def sinAcentoChar (c : Char) : Char :=
  if c == 'Á' then 'A' else if c == 'É' then 'E' else if c == 'Í' then 'I'
  else if c == 'Ó' then 'O' else if c == 'Ú' then 'U' else if c == 'Ü' then 'U'
  else if c == 'Ñ' then 'N' else c

/-- `_sin_acentos` from main.py. -/
def sin_acentos (l : List Char) : List Char := l.map sinAcentoChar

/-- `normalizar_token` from main.py: `limpiar(tok.upper())`. -/
def normalizar_token (tok : List Char) : List Char := limpiar (tok.map mayusChar)

/-- `detectar_color` from main.py.  Note the scan order of the source:
`🔴` (negative) is checked before `⚠️` (alert), then `🟢` (positive) before
the default `🟡` (neutral); the severity names follow the report labels
in `generar_resumen` (🟢 Positivas, 🟡 Neutras, 🔴 Negativas, ⚠️ Alertas). -/
def detectar_color (texto : List Char) : List Char :=
  if subcadena (cad "🔴") texto then cad "🔴"
  else if subcadena (cad "⚠️") texto || subcadena (cad "⚠") texto then cad "⚠️"
  else if subcadena (cad "🟢") texto then cad "🟢"
  else if subcadena (cad "🟡") texto then cad "🟡"
  else cad "🟡"

/-- The `ROLES` set of main.py, listed in decreasing length.  The Python code
iterates `sorted(ROLES, key=len, reverse=True)` and strips at most one leading
role; the relative order of equal-length roles is irrelevant because two
distinct prefixes of the same length cannot both match. -/
def ROLES_ORDENADOS : List (List Char) :=
  [cad "PRESIDENTE MUNICIPAL", cad "PRESIDENTA MUNICIPAL",
   cad "GOBERNADORA", cad "GOBERNADOR", cad "SECRETARIO", cad "SECRETARIA",
   cad "ALCALDESA", cad "DIPUTADO", cad "DIPUTADA", cad "SENADORA", cad "REGIDORA",
   cad "ALCALDE", cad "SENADOR", cad "REGIDOR", cad "FISCAL"]

/-- `quitar_rol` from main.py: normalize, then strip the first matching
role prefix (followed by a space), if any. -/
def quitar_rol (s : List Char) : List Char :=
  match ROLES_ORDENADOS.find? (fun r => listaPrefijo (r ++ [' ']) (normalizar_token s)) with
  | some r => (normalizar_token s).drop (r.length + 1)
  | none => normalizar_token s

/-- The `ALIASES` dict of main.py, in source order. -/
def ALIASES : List (List Char × List Char) :=
  [(cad "MARCO BONILLA", cad "MARCO BONILLA"),
   (cad "BONILLA", cad "MARCO BONILLA"),
   (cad "ALCALDE BONILLA", cad "MARCO BONILLA"),
   (cad "MARCO BONILLA MENDOZA", cad "MARCO BONILLA"),
   (cad "ALCALDE MARCO BONILLA", cad "MARCO BONILLA"),
   (cad "ALCALDE MARCO", cad "MARCO BONILLA"),
   (cad "ALCALDE DE CHIHUAHUA", cad "MARCO BONILLA"),
   (cad "CRUZ PEREZ CUELLAR", cad "CRUZ PÉREZ CUÉLLAR"),
   (cad "CRUZ PÉREZ CUÉLLAR", cad "CRUZ PÉREZ CUÉLLAR"),
   (cad "PEREZ CUELLAR", cad "CRUZ PÉREZ CUÉLLAR"),
   (cad "CRUZ PEREZ", cad "CRUZ PÉREZ CUÉLLAR"),
   (cad "CRUZ PÉREZ", cad "CRUZ PÉREZ CUÉLLAR"),
   (cad "MARU CAMPOS", cad "MARU CAMPOS"),
   (cad "MARIA EUGENIA CAMPOS", cad "MARU CAMPOS"),
   (cad "MARÍA EUGENIA CAMPOS", cad "MARU CAMPOS"),
   (cad "CESAR JAUREGUI MORENO", cad "CÉSAR JÁUREGUI MORENO"),
   (cad "CÉSAR JÁUREGUI MORENO", cad "CÉSAR JÁUREGUI MORENO"),
   (cad "CESAR JAUREGUI", cad "CÉSAR JÁUREGUI MORENO"),
   (cad "JAUREGUI", cad "CÉSAR JÁUREGUI MORENO")]

/-- `ALIASES_NORM`: the alias table with accent-stripped keys.  In Python this
is a dict comprehension where later duplicate keys overwrite earlier ones; all
colliding keys map to the same value, so a first-match lookup is equivalent. -/
def ALIASES_NORM : List (List Char × List Char) :=
  ALIASES.map (fun p => (sin_acentos p.1, p.2))

/-- Dict lookup over an association list (first match). -/
def busca (l : List (List Char × List Char)) (k : List Char) : Option (List Char) :=
  (l.find? (fun p => p.1 == k)).map (fun p => p.2)

/-- `set(ALIASES.values())` of main.py, deduplicated. -/
def ACTORES_CANON : List (List Char) :=
  [cad "MARCO BONILLA", cad "CRUZ PÉREZ CUÉLLAR", cad "MARU CAMPOS", cad "CÉSAR JÁUREGUI MORENO"]

/-- `canon_actor` from main.py. -/
def canon_actor (s : List Char) : List Char :=
  if s = [] then []
  else
    match busca ALIASES_NORM (sin_acentos (normalizar_token (quitar_rol s))) with
    | some v => v
    | none => normalizar_token (quitar_rol s)

/-- Scanner for `re.split(r"[,/]| y | e | - ", chunk, flags=re.IGNORECASE)`:
at each position the single-character class `[,/]` is tried, then the
three-character alternatives `" y "`, `" e "`, `" - "` (case-insensitive). -/
def partirActoresAux : List Char → List Char → List (List Char)
  | acc, [] => [acc.reverse]
  | acc, ' ' :: y :: ' ' :: rest =>
    if y == 'y' || y == 'Y' || y == 'e' || y == 'E' || y == '-' then
      acc.reverse :: partirActoresAux [] rest
    else partirActoresAux (' ' :: acc) (y :: ' ' :: rest)
  | acc, c :: rest =>
    if c == ',' || c == '/' then acc.reverse :: partirActoresAux [] rest
    else partirActoresAux (c :: acc) rest

/-- `partir_actores_chunk` from main.py. -/
def partir_actores_chunk (chunk : List Char) : List (List Char) :=
  ((partirActoresAux [] chunk).map limpiar).filter (fun a => !a.isEmpty)

/-- The `ALCANCE_CATALOG` set of main.py (membership test only). -/
def ALCANCE_CATALOG : List (List Char) :=
  [cad "ESTATAL", cad "LOCAL", cad "NACIONAL",
   cad "JUAREZ", cad "JUÁREZ", cad "CHIHUAHUA",
   cad "MUNICIPAL", cad "ESTADO", cad "CD JUAREZ", cad "CD. JUAREZ", cad "CD. JUÁREZ",
   cad "ZONA CENTRO", cad "REGIONAL"]

/-- `ICON_SET` removal of `parse_header`: `clean.replace(ic, "")` for each of
🟢, 🟡, 🔴, ⚠️ in that order (⚠️ is the two-character sequence U+26A0 U+FE0F). -/
def quitaIconos (l : List Char) : List Char :=
  quitarSeq (cad "⚠️") (quitarSeq (cad "🔴") (quitarSeq (cad "🟡") (quitarSeq (cad "🟢") l)))

/-- The token list of `parse_header`: icon-stripped header split on `/`,
each token `limpiar`-ed, empty tokens dropped. -/
def tokensHeader (header : List Char) : List (List Char) :=
  ((partirEn '/' (quitaIconos header)).map limpiar).filter (fun t => !t.isEmpty)

/-- `tokens[1:-1]` of `parse_header`. -/
def coreTokens (tokens : List (List Char)) : List (List Char) :=
  (tokens.drop 1).dropLast

/-- The scope extraction of `parse_header`: if the core is non-empty and its
normalized last token is in the catalog, it becomes the scope and leaves the
core. -/
def separaAlcance (core : List (List Char)) : List Char × List (List Char) :=
  match core.getLast? with
  | none => ([], core)
  | some p =>
    if ALCANCE_CATALOG.contains (normalizar_token p) then
      (normalizar_token p, core.dropLast)
    else ([], core)

/-- The actor-accumulation step of `parse_header`:
`if ca and ca not in actores: actores.append(ca)`. -/
def agregaActor (acc : List (List Char)) (a : List Char) : List (List Char) :=
  if canon_actor a ≠ [] ∧ canon_actor a ∉ acc then acc ++ [canon_actor a] else acc

/-- The actor list accumulated from the core chunks in `parse_header`. -/
def actoresDe (core : List (List Char)) : List (List Char) :=
  core.foldl (fun acc ch => (partir_actores_chunk ch).foldl agregaActor acc) []

/-- `parse_header` from main.py: `(actores, alcance, medio)`;
`([], "", "")` when fewer than 2 tokens remain. -/
def parse_header (header : List Char) : List (List Char) × List Char × List Char :=
  if (tokensHeader header).length < 2 then ([], [], [])
  else
    ((if actoresDe (separaAlcance (coreTokens (tokensHeader header))).2 = []
      then [cad "OTROS DE INTERES"]
      else actoresDe (separaAlcance (coreTokens (tokensHeader header))).2),
     (separaAlcance (coreTokens (tokensHeader header))).1,
     normalizar_token ((tokensHeader header).getLastD []))

/-- `URL_RE.findall` for the pattern `https?://[^\s]+`: scan left to right;
at a match, the scheme is consumed greedily (`https` preferred over `http`)
followed by a maximal non-empty run of non-whitespace; scanning resumes after
the match. -/
def urlsAuxF : Nat → List Char → List (List Char)
  | _, [] => []
  | 0, _ => []
  | fuel + 1, c :: rest =>
    if listaPrefijo (cad "https://") (c :: rest) then
      if (List.takeWhile (fun ch => !esEspacio ch) (List.drop 8 (c :: rest))).length = 0 then
        urlsAuxF fuel rest
      else
        (cad "https://" ++ List.takeWhile (fun ch => !esEspacio ch) (List.drop 8 (c :: rest))) ::
          urlsAuxF fuel
            (List.drop (List.takeWhile (fun ch => !esEspacio ch) (List.drop 8 (c :: rest))).length
               (List.drop 8 (c :: rest)))
    else if listaPrefijo (cad "http://") (c :: rest) then
      if (List.takeWhile (fun ch => !esEspacio ch) (List.drop 7 (c :: rest))).length = 0 then
        urlsAuxF fuel rest
      else
        (cad "http://" ++ List.takeWhile (fun ch => !esEspacio ch) (List.drop 7 (c :: rest))) ::
          urlsAuxF fuel
            (List.drop (List.takeWhile (fun ch => !esEspacio ch) (List.drop 7 (c :: rest))).length
               (List.drop 7 (c :: rest)))
    else urlsAuxF fuel rest

/-- `URL_RE.findall` driver: every step of `urlsAuxF` consumes at least one
character, so fuel `s.length` never runs out. -/
def urlsAux (s : List Char) : List (List Char) := urlsAuxF s.length s

/-- `urls[-1] if urls else ""` of `parse_message`. -/
def ultimaUrl (texto : List Char) : List Char :=
  (urlsAux texto).getLastD []

/-- `extraer_header_y_cuerpo` from main.py.  `splitlines` is modelled as a
split on `'\n'` (the texts handled by the bot use Unix newlines). -/
def extraer_header_y_cuerpo (texto : List Char) : List Char × List Char :=
  if recortaEspacios texto = [] then ([], [])
  else
    ((partirEn '\n' (recortaEspacios texto)).headD [] |> limpiar,
     limpiar (List.intercalate (cad "\n") ((partirEn '\n' (recortaEspacios texto)).drop 1)))

/-- The header of a post. -/
def headerDe (texto : List Char) : List Char := (extraer_header_y_cuerpo texto).1

/-- The body of a post. -/
def cuerpoDe (texto : List Char) : List Char := (extraer_header_y_cuerpo texto).2

/-- 2^32, the word modulus of SHA-1. -/
def M32 : Nat := 4294967296

/-- 32-bit left rotation (for arguments below `M32`). -/
def rotl (n x : Nat) : Nat := x * 2 ^ n % M32 + x / 2 ^ (32 - n)

/-- UTF-8 encoding of one character (Python `str.encode("utf-8")`). -/
def utf8Car (c : Char) : List Nat :=
  if c.toNat < 128 then [c.toNat]
  else if c.toNat < 2048 then [192 + c.toNat / 64, 128 + c.toNat % 64]
  else if c.toNat < 65536 then
    [224 + c.toNat / 4096, 128 + c.toNat / 64 % 64, 128 + c.toNat % 64]
  else
    [240 + c.toNat / 262144, 128 + c.toNat / 4096 % 64, 128 + c.toNat / 64 % 64, 128 + c.toNat % 64]

/-- UTF-8 bytes of a string. -/
def utf8Bytes (s : List Char) : List Nat :=
  s.foldr (fun c acc => utf8Car c ++ acc) []

/-- SHA-1 zero padding for a message of `l` bytes. -/
def relleno (l : Nat) : List Nat := List.replicate ((119 - l % 64) % 64) 0

/-- The 8-byte big-endian bit length field of SHA-1 padding. -/
def longBytes (l : Nat) : List Nat :=
  [8 * l / 2 ^ 56 % 256, 8 * l / 2 ^ 48 % 256, 8 * l / 2 ^ 40 % 256, 8 * l / 2 ^ 32 % 256,
   8 * l / 2 ^ 24 % 256, 8 * l / 2 ^ 16 % 256, 8 * l / 2 ^ 8 % 256, 8 * l % 256]

/-- A SHA-1 padded message: message, `0x80`, zeros, 64-bit length. -/
def conRelleno (msg : List Nat) : List Nat :=
  msg ++ [128] ++ relleno msg.length ++ longBytes msg.length

/-- Fuel-driven splitting into 64-byte blocks (each step consumes at least
one byte, so fuel `l.length` suffices). -/
def bloquesF : Nat → List Nat → List (List Nat)
  | _, [] => []
  | 0, _ => []
  | fuel + 1, c :: rest => ((c :: rest).take 64) :: bloquesF fuel ((c :: rest).drop 64)

/-- Split a byte list into 64-byte blocks. -/
def bloques (l : List Nat) : List (List Nat) := bloquesF l.length l

/-- Big-endian 32-bit word from 4 bytes. -/
def palabra (b0 b1 b2 b3 : Nat) : Nat := ((b0 * 256 + b1) * 256 + b2) * 256 + b3

/-- The 16 words of a 64-byte block. -/
def palabras16 : List Nat → List Nat
  | b0 :: b1 :: b2 :: b3 :: rest => palabra b0 b1 b2 b3 :: palabras16 rest
  | _ => []

/-- One step of the SHA-1 message-schedule extension. -/
def pasoW (ws : List Nat) : List Nat :=
  ws ++ [rotl 1 (((ws.getD (ws.length - 3) 0) ^^^ (ws.getD (ws.length - 8) 0)) ^^^
                 ((ws.getD (ws.length - 14) 0) ^^^ (ws.getD (ws.length - 16) 0)))]

/-- The 80-word message schedule. -/
def ws80 (ws : List Nat) : List Nat := (List.range 64).foldl (fun a _ => pasoW a) ws

/-- The SHA-1 round function. -/
def fSha (i b c d : Nat) : Nat :=
  if i < 20 then (b &&& c) ||| ((b ^^^ (M32 - 1)) &&& d)
  else if i < 40 then (b ^^^ c) ^^^ d
  else if i < 60 then ((b &&& c) ||| (b &&& d)) ||| (c &&& d)
  else (b ^^^ c) ^^^ d

/-- The SHA-1 round constants. -/
def kSha (i : Nat) : Nat :=
  if i < 20 then 1518500249
  else if i < 40 then 1859775393
  else if i < 60 then 2400959708
  else 3395469782

/-- SHA-1 working state. -/
structure Sha1St where
  a : Nat
  b : Nat
  c : Nat
  d : Nat
  e : Nat
deriving DecidableEq

/-- One SHA-1 round. -/
def vuelta (ws : List Nat) (st : Sha1St) (i : Nat) : Sha1St :=
  ⟨(rotl 5 st.a + fSha i st.b st.c st.d + st.e + kSha i + ws.getD i 0) % M32,
   st.a, rotl 30 st.b, st.c, st.d⟩

/-- Process one 64-byte block. -/
def procesaBloque (h : Sha1St) (bloque : List Nat) : Sha1St :=
  let st := (List.range 80).foldl (vuelta (ws80 (palabras16 bloque))) h
  ⟨(h.a + st.a) % M32, (h.b + st.b) % M32, (h.c + st.c) % M32,
   (h.d + st.d) % M32, (h.e + st.e) % M32⟩

/-- Lowercase hexadecimal digit. -/
def hexDig (n : Nat) : Char := if n < 10 then Char.ofNat (48 + n) else Char.ofNat (87 + n)

/-- A 32-bit word as 8 lowercase hex characters (zero padded). -/
def hex8 (w : Nat) : List Char :=
  [hexDig (w / 16 ^ 7 % 16), hexDig (w / 16 ^ 6 % 16), hexDig (w / 16 ^ 5 % 16),
   hexDig (w / 16 ^ 4 % 16), hexDig (w / 16 ^ 3 % 16), hexDig (w / 16 ^ 2 % 16),
   hexDig (w / 16 % 16), hexDig (w % 16)]

/-- `hashlib.sha1(bytes).hexdigest()`. -/
def sha1hex (msg : List Nat) : List Char :=
  hex8 ((bloques (conRelleno msg)).foldl procesaBloque
          ⟨1732584193, 4023233417, 2562383102, 271733878, 3285377520⟩).a ++
  hex8 ((bloques (conRelleno msg)).foldl procesaBloque
          ⟨1732584193, 4023233417, 2562383102, 271733878, 3285377520⟩).b ++
  hex8 ((bloques (conRelleno msg)).foldl procesaBloque
          ⟨1732584193, 4023233417, 2562383102, 271733878, 3285377520⟩).c ++
  hex8 ((bloques (conRelleno msg)).foldl procesaBloque
          ⟨1732584193, 4023233417, 2562383102, 271733878, 3285377520⟩).d ++
  hex8 ((bloques (conRelleno msg)).foldl procesaBloque
          ⟨1732584193, 4023233417, 2562383102, 271733878, 3285377520⟩).e

/-- `hash_columna` from main.py: `hashlib.sha1(link.encode("utf-8")).hexdigest()`. -/
def hash_columna (link : List Char) : List Char := sha1hex (utf8Bytes link)

/-- An entry of the store `all_items` (the dict built in `parse_message`);
`fecha` is the ingestion time `ahora_tz()` passed explicitly. -/
structure Item where
  col_id : List Char
  fecha : Nat
  color : List Char
  actors : List (List Char)
  alcance : List Char
  medio : List Char
  cuerpo : List Char
  link : List Char
deriving DecidableEq

/-- `parse_message` from main.py: returns `[]` for empty text, a blank
(cleaned) first line, or a post with no URL; otherwise one item. -/
def parse_message (texto : List Char) (ahora : Nat) : List Item :=
  if texto = [] then []
  else if headerDe texto = [] then []
  else if ultimaUrl texto = [] then []
  else
    [{ col_id := hash_columna (ultimaUrl texto),
       fecha := ahora,
       color := detectar_color texto,
       actors := (parse_header (headerDe texto)).1,
       alcance := (parse_header (headerDe texto)).2.1,
       medio := if (parse_header (headerDe texto)).2.2 = [] then cad "SIN MEDIO"
                else (parse_header (headerDe texto)).2.2,
       cuerpo := cuerpoDe texto,
       link := ultimaUrl texto }]

/-- The message handler `recibir_columnas` from main.py, with the global
store passed explicitly: posts without a `/` are ignored, parsed items whose
`col_id` is already present are dropped, the rest are appended. -/
def recibir (s : List Item) (texto : List Char) (ahora : Nat) : List Item :=
  if !texto.contains '/' then s
  else s ++ (parse_message texto ahora).filter (fun it => !(s.map Item.col_id).contains it.col_id)

/-- Number of stored entries carrying dedup key `k`. -/
def cuentaClave (s : List Item) (k : List Char) : Nat :=
  (s.filter (fun it => it.col_id == k)).length

/-- The per-actor tally dict of `top_actores`:
counters for 🟢, 🟡, 🔴, ⚠️ and the total. -/
structure Cuentas where
  verde : Nat
  amarillo : Nat
  rojo : Nat
  advertencia : Nat
  total : Nat
deriving DecidableEq

/-- The zero tally (`{"🟢":0,"🟡":0,"🔴":0,"⚠️":0,"total":0}`). -/
def cuentasCero : Cuentas := ⟨0, 0, 0, 0, 0⟩

/-- `d[it["color"]] += 1; d["total"] += 1` of `top_actores`.  The colors
produced by `detectar_color` are exactly these four strings; on any other
key Python would raise, which cannot happen in the pipeline. -/
def incColor (color : List Char) (d : Cuentas) : Cuentas :=
  if color = cad "🟢" then { d with verde := d.verde + 1, total := d.total + 1 }
  else if color = cad "🟡" then { d with amarillo := d.amarillo + 1, total := d.total + 1 }
  else if color = cad "🔴" then { d with rojo := d.rojo + 1, total := d.total + 1 }
  else if color = cad "⚠️" then { d with advertencia := d.advertencia + 1, total := d.total + 1 }
  else d

/-- `acc.setdefault(a, zero)` followed by the increments: update the tally of
actor `a` in place, or append a fresh one (Python dicts keep first-insertion
order). -/
def actualizaAcc (acc : List (List Char × Cuentas)) (a : List Char) (color : List Char) :
    List (List Char × Cuentas) :=
  if acc.any (fun p => p.1 == a) then
    acc.map (fun p => if p.1 == a then (p.1, incColor color p.2) else p)
  else acc ++ [(a, incColor color cuentasCero)]

/-- The accumulation loop of `top_actores`. -/
def acumulaActores (items : List Item) : List (List Char × Cuentas) :=
  items.foldl (fun acc it => it.actors.foldl (fun acc2 a => actualizaAcc acc2 a it.color) acc) []

/-- The sort key comparison of `top_actores`: Python tuples
`(d["total"], d["🔴"], d["⚠️"])` compared lexicographically;
`mayorActor x y` means the key of `x` is strictly greater. -/
def mayorActor (x y : Cuentas) : Bool :=
  decide (y.total < x.total ∨ (x.total = y.total ∧
    (y.rojo < x.rojo ∨ (x.rojo = y.rojo ∧ y.advertencia < x.advertencia))))

/-- Stable insertion for a descending sort: `x` is placed before the first
element not strictly greater than it, so equal keys keep their original
relative order — the behavior of Python `sorted(..., reverse=True)`. -/
def insertaPor (mayor : α → α → Bool) (x : α) : List α → List α
  | [] => [x]
  | y :: ys => if mayor y x then y :: insertaPor mayor x ys else x :: y :: ys

/-- Stable sort placing greater keys first (Python `sorted(..., reverse=True)`
for a strict comparison `mayor`). -/
def ordenaPor (mayor : α → α → Bool) (l : List α) : List α :=
  l.foldr (insertaPor mayor) []

/-- `top_actores` from main.py. -/
def top_actores (items : List Item) (limite : Nat) : List (List Char × Cuentas) :=
  (ordenaPor (fun p q => mayorActor p.2 q.2) (acumulaActores items)).take limite

/-- The loop of `medios_con_publicacion` from main.py: `vistos` is the set of
outlets already seen (only membership and non-emptiness are used). -/
def mediosAux : List Item → List (List Char) → List (List Char)
  | [], _ => []
  | it :: rest, vistos =>
    if it.medio.isEmpty then mediosAux rest vistos
    else if it.medio == cad "SIN MEDIO" && !vistos.isEmpty then mediosAux rest vistos
    else if vistos.contains it.medio then mediosAux rest vistos
    else it.medio :: mediosAux rest (it.medio :: vistos)

/-- `medios_con_publicacion` from main.py. -/
def medios_con_publicacion (items : List Item) : List (List Char) :=
  mediosAux items []

/-- The `STOP_ES` stopword set of main.py (membership test only). -/
def STOP_ES : List (List Char) :=
  [cad "LA", cad "EL", cad "LOS", cad "LAS", cad "DE", cad "DEL", cad "AL", cad "A",
   cad "Y", cad "O", cad "U", cad "EN", cad "POR", cad "PARA", cad "CON",
   cad "SE", cad "QUE", cad "SU", cad "SUS", cad "UN", cad "UNA", cad "UNOS",
   cad "UNAS", cad "LO", cad "LES", cad "YA", cad "NO", cad "SI", cad "SÍ",
   cad "MAS", cad "MÁS", cad "COMO", cad "ES", cad "SON", cad "SER", cad "FUE",
   cad "HAN", cad "HAY", cad "ESTE", cad "ESTA", cad "ESTOS", cad "ESTAS",
   cad "ESE", cad "ESA", cad "AQUEL", cad "AQUELLA", cad "ANTE", cad "BAJO",
   cad "CABE", cad "HACIA", cad "HASTA", cad "TRAS", cad "ENTRE",
   cad "SOBRE", cad "MUY", cad "TAMBIÉN", cad "TAMBIEN", cad "PERO", cad "NI",
   cad "SINO", cad "LE", cad "DEBE", cad "DEBEN", cad "DEBEMOS",
   cad "HTTPS", cad "HTTP", cad "WWW", cad "COM", cad "MX", cad "PHP",
   cad "HTML", cad "HTM", cad "AMP",
   cad "ENTRELÍNEAS", cad "ENTRELINEAS", cad "OMNIA", cad "PARADOJA",
   cad "HERALDO", cad "VOZ", cad "RED", cad "NOTICIAS",
   cad "OEM", cad "ELHERALDODECHIHUAHUA", cad "ELHERALDO", cad "ANALISIS",
   cad "ANÁLISIS", cad "RAFAGAS", cad "RÁFAGAS",
   cad "VIDEO", cad "FOTO", cad "GALERIA", cad "GALERÍA", cad "EDITORIAL",
   cad "COLUMNA", cad "OPINION", cad "OPINIÓN",
   cad "OTROS", cad "INTERES", cad "INTERÉS", cad "SIN", cad "MEDIO",
   cad "CHIHUAHUENSES", cad "CHIHUAHUA"]

/-- `ROLES_BAN` from main.py: the accent-stripped role words. -/
def ROLES_BAN : List (List Char) := ROLES_ORDENADOS.map sin_acentos

/-- The characters kept by `_tokenizar`'s regex `[^A-ZÁÉÍÓÚÜÑ0-9 ]`. -/
def esPermitido (c : Char) : Bool :=
  ('A' ≤ c && c ≤ 'Z') || ('0' ≤ c && c ≤ '9') || c == ' ' ||
  c == 'Á' || c == 'É' || c == 'Í' || c == 'Ó' || c == 'Ú' || c == 'Ü' || c == 'Ñ'

/-- `_tokenizar` from main.py: uppercase, replace every other character with a
space, split, keep words of length ≥ 3 that are neither stopwords nor role
words (both compared accent-stripped). -/
def tokenizar (texto : List Char) : List (List Char) :=
  (((partirEn ' ' ((texto.map mayusChar).map (fun c => if esPermitido c then c else ' '))).filter
      (fun w => !w.isEmpty)).filter (fun w => 3 ≤ w.length)).filter
    (fun x => !(STOP_ES.contains (sin_acentos x) || ROLES_BAN.contains (sin_acentos x)))

/-- `_ngrams` from main.py. -/
def ngrams (words : List (List Char)) (n : Nat) : List (List Char) :=
  if words.length < n then []
  else (List.range (words.length - n + 1)).map
    (fun i => List.intercalate (cad " ") ((words.drop i).take n))

/-- `_up` from main.py: uppercase then strip accents. -/
def subir (s : List Char) : List Char := sin_acentos (s.map mayusChar)

/-- A topic rule of `TOPIC_RULES`: label, `must_any` groups (every group must
have a member present), `any` groups (likewise), `avoid` groups (no member may
be present).  The Python keyword sets are modelled as lists; only `any`-style
membership is used, so their order is irrelevant. -/
structure Regla where
  etiqueta : List Char
  must_any : List (List (List Char))
  any_k : List (List (List Char))
  avoid_k : List (List (List Char))

/-- `KW_LUGARES_CDMX` from main.py. -/
def KW_LUGARES_CDMX : List (List Char) :=
  [cad "CDMX", cad "CIUDAD DE MEXICO", cad "CIUDAD DE MÉXICO", cad "MEXICO",
   cad "CD. MX", cad "CDMX,"]

/-- `KW_ACCION_VIAJE` from main.py. -/
def KW_ACCION_VIAJE : List (List Char) :=
  [cad "VIAJE", cad "GIRA", cad "REUNION", cad "REUNIÓN", cad "ENCUENTRO",
   cad "AGENDA", cad "VISITA"]

/-- `KW_CONFLICTO` from main.py. -/
def KW_CONFLICTO : List (List Char) :=
  [cad "CONFLICTO", cad "RUPTURA", cad "DIVISION", cad "DIVISIÓN", cad "DISPUTA",
   cad "PUGNA", cad "GRILLA", cad "PLEITO", cad "TENSION", cad "TENSIÓN", cad "CRISIS"]

/-- `KW_UNIDAD` from main.py (declared but unused by the rules below). -/
def KW_UNIDAD : List (List Char) :=
  [cad "UNIDAD", cad "CIERRE DE FILAS", cad "ACUERDO", cad "CONSENSO"]

/-- `KW_PAN` from main.py. -/
def KW_PAN : List (List Char) :=
  [cad "PAN", cad "ACCION NACIONAL", cad "ACCIÓN NACIONAL", cad "ALBIAZUL"]

/-- `KW_GABINETE` from main.py. -/
def KW_GABINETE : List (List Char) :=
  [cad "GABINETE", cad "SECRETARIO", cad "SECRETARIA", cad "TITULAR", cad "DEPENDENCIA"]

/-- `KW_MOVIMIENTOS` from main.py. -/
def KW_MOVIMIENTOS : List (List Char) :=
  [cad "CAMBIO", cad "CAMBIOS", cad "NOMBRAMIENTO", cad "NOMBRA", cad "RENUNCIA",
   cad "RENUNCIÓ", cad "RELEVO", cad "SUSTITUCION", cad "SUSTITUCIÓN",
   cad "DESIGNACION", cad "DESIGNACIÓN"]

/-- `KW_ESTADO` from main.py. -/
def KW_ESTADO : List (List Char) :=
  [cad "GOBIERNO DEL ESTADO", cad "ESTADO", cad "ESTATAL", cad "PALACIO DE GOBIERNO",
   cad "MARU CAMPOS"]

/-- `TOPIC_RULES` from main.py. -/
def TOPIC_RULES : List Regla :=
  [⟨cad "Viaje de Marco a la CDMX", [[cad "MARCO BONILLA"]],
    [KW_LUGARES_CDMX, KW_ACCION_VIAJE], []⟩,
   ⟨cad "Conflictos internos en el PAN", [KW_PAN], [KW_CONFLICTO], []⟩,
   ⟨cad "Cambios en el gabinete del Estado", [KW_GABINETE, KW_MOVIMIENTOS],
    [KW_ESTADO], []⟩]

/-- The rule match test of `extraer_temas`. -/
def cumple (txtUp : List Char) (r : Regla) : Bool :=
  r.must_any.all (fun conj => conj.any (fun w => subcadena w txtUp)) &&
  r.any_k.all (fun gr => gr.any (fun w => subcadena w txtUp)) &&
  !(r.avoid_k.any (fun gr => gr.any (fun w => subcadena w txtUp)))

/-- The per-column record built at the start of `extraer_temas`. -/
structure Col where
  medio : List Char
  txt : List Char
  txtUp : List Char
deriving DecidableEq

/-- Case-insensitive character comparison (Python `re.IGNORECASE` over the
alphabet used by this program). -/
def eqNoCaso (a b : Char) : Bool := mayusChar a == mayusChar b

/-- Case-insensitive prefix test. -/
def listaPrefijoNoCaso : List Char → List Char → Bool
  | [], _ => true
  | _ :: _, [] => false
  | a :: as, b :: bs => eqNoCaso a b && listaPrefijoNoCaso as bs

/-- `re.sub(re.escape(pat), " ", s, flags=re.IGNORECASE)`: each leftmost
non-overlapping case-insensitive occurrence of the literal `pat` becomes one
space; the empty pattern matches at every position (as in Python). -/
def sustNoCasoF (pat : List Char) : Nat → List Char → List Char
  | _, [] => []
  | 0, s => s
  | fuel + 1, c :: rest =>
    if pat.isEmpty then ' ' :: c :: sustNoCasoF pat fuel rest
    else if listaPrefijoNoCaso pat (c :: rest) then
      ' ' :: sustNoCasoF pat fuel ((c :: rest).drop pat.length)
    else c :: sustNoCasoF pat fuel rest

/-- Driver for `sustNoCasoF`: every step consumes at least one character of
`s`, so fuel `s.length` never runs out. -/
def sustNoCaso (pat : List Char) (s : List Char) : List Char :=
  sustNoCasoF pat s.length s

/-- `URL_RE.sub(" ", cuerpo)`: every URL match becomes one space.  The match
discipline is the same as in `urlsAux`. -/
def sustUrlsF : Nat → List Char → List Char
  | _, [] => []
  | 0, s => s
  | fuel + 1, c :: rest =>
    if listaPrefijo (cad "https://") (c :: rest) then
      if (List.takeWhile (fun ch => !esEspacio ch) (List.drop 8 (c :: rest))).length = 0 then
        c :: sustUrlsF fuel rest
      else
        ' ' :: sustUrlsF fuel
          (List.drop (List.takeWhile (fun ch => !esEspacio ch) (List.drop 8 (c :: rest))).length
             (List.drop 8 (c :: rest)))
    else if listaPrefijo (cad "http://") (c :: rest) then
      if (List.takeWhile (fun ch => !esEspacio ch) (List.drop 7 (c :: rest))).length = 0 then
        c :: sustUrlsF fuel rest
      else
        ' ' :: sustUrlsF fuel
          (List.drop (List.takeWhile (fun ch => !esEspacio ch) (List.drop 7 (c :: rest))).length
             (List.drop 7 (c :: rest)))
    else c :: sustUrlsF fuel rest

/-- Driver for `sustUrlsF` (fuel `s.length` suffices, as in `urlsAux`). -/
def sustUrls (s : List Char) : List Char := sustUrlsF s.length s

/-- Dict insertion with overwrite (Python `cols[cid] = {...}`): the position
of an existing key is kept, new keys are appended. -/
def dictActualiza (l : List (List Char × Col)) (k : List Char) (v : Col) :
    List (List Char × Col) :=
  if l.any (fun p => p.1 == k) then l.map (fun p => if p.1 == k then (k, v) else p)
  else l ++ [(k, v)]

/-- The `cols` dict of `extraer_temas`: for each item, the document text is the
actor names and scope followed by the URL-stripped body, `limpiar`-ed, with the
item's own outlet removed case-insensitively. -/
def colsDe (items : List Item) : List (List Char × Col) :=
  items.foldl
    (fun cols it =>
      dictActualiza cols it.col_id
        { medio := it.medio,
          txt := sustNoCaso it.medio
                   (limpiar ((List.intercalate (cad " ") it.actors ++ cad " " ++ it.alcance) ++
                             cad " " ++ sustUrls it.cuerpo)),
          txtUp := subir (sustNoCaso it.medio
                   (limpiar ((List.intercalate (cad " ") it.actors ++ cad " " ++ it.alcance) ++
                             cad " " ++ sustUrls it.cuerpo))) })
    []

/-- `tema_cols[label].add(cid)` and `tema_medios[label].add(medio)` fused into
one association list `(label, cids, medios)`; labels keep first-match order,
cids and medios are deduplicated (set semantics). -/
def agregaTema (acc : List (List Char × List (List Char) × List (List Char)))
    (label cid medio : List Char) :
    List (List Char × List (List Char) × List (List Char)) :=
  if acc.any (fun p => p.1 == label) then
    acc.map (fun p =>
      if p.1 == label then
        (p.1, (if p.2.1.contains cid then p.2.1 else p.2.1 ++ [cid]),
         (if p.2.2.contains medio then p.2.2 else p.2.2 ++ [medio]))
      else p)
  else acc ++ [(label, [cid], [medio])]

/-- The tier-1 rule pass of `extraer_temas`. -/
def tier1De (cols : List (List Char × Col)) :
    List (List Char × List (List Char) × List (List Char)) :=
  cols.foldl
    (fun acc p =>
      TOPIC_RULES.foldl
        (fun acc2 r => if cumple p.2.txtUp r then agregaTema acc2 r.etiqueta p.1 p.2.medio
                       else acc2)
        acc)
    []

/-- `set(ALIASES.values())` with accents stripped (`actores_can_sin_acento`). -/
def actoresCanonSinAcento : List (List Char) := ACTORES_CANON.map sin_acentos

/-- `grams_filtrados` of one column in the tier-2 fallback: 3-grams then
2-grams of the tokenized text, dropping any gram containing a canonical actor
name (substring, accents stripped) and any gram that is itself a stopword. -/
def gramsFiltrados (c : Col) : List (List Char) :=
  ((ngrams (tokenizar c.txt) 3 ++ ngrams (tokenizar c.txt) 2).filter
    (fun g => !((actoresCanonSinAcento.any (fun a => subcadena a (sin_acentos g))) ||
                STOP_ES.contains (sin_acentos g))))

/-- `cnt[g] += 1` over an association list (Python `Counter`, first-insertion
order preserved). -/
def incCnt (l : List (List Char × Nat)) (g : List Char) : List (List Char × Nat) :=
  if l.any (fun p => p.1 == g) then
    l.map (fun p => if p.1 == g then (p.1, p.2 + 1) else p)
  else l ++ [(g, 1)]

/-- The tier-2 counter: each distinct gram of a column (Python
`for g in set(grams_filtrados)`, modelled as first-occurrence deduplication)
counts once per column. -/
def cntDe (cols : List (List Char × Col)) : List (List Char × Nat) :=
  cols.foldl (fun acc p => ((gramsFiltrados p.2).eraseDups).foldl incCnt acc) []

/-- `tema_en_medio[g]`: the set of outlets of the columns containing gram `g`
(deduplicated; it is only consumed through `sorted(...)`). -/
def temaEnMedio (cols : List (List Char × Col)) (g : List Char) : List (List Char) :=
  ((cols.filter (fun p => (gramsFiltrados p.2).contains g)).map (fun p => p.2.medio)).eraseDups

/-- The tier-2 sort key comparison: Python tuples `(count, len(gram))`
compared lexicographically, greater first. -/
def mayorGram (p q : List Char × Nat) : Bool :=
  decide (q.2 < p.2 ∨ (p.2 = q.2 ∧ q.1.length < p.1.length))

/-- Counter lookup (0 for a missing key, as Python `Counter`). -/
def buscaCnt (l : List (List Char × Nat)) (g : List Char) : Nat :=
  match l.find? (fun p => p.1 == g) with
  | some p => p.2
  | none => 0

/-- The greedy near-duplicate-suppressing selection loop of `extraer_temas`:
take grams in `top` order, skip one whose accent-stripped form is a prefix of
(or has as prefix) an already selected base, stop once `maxT` are chosen. -/
def eligeAux (maxT : Nat) : List (List Char × Nat) → List (List Char) → List (List Char) →
    List (List Char)
  | [], _, ac => ac.reverse
  | p :: t, bases, ac =>
    if bases.any (fun b => listaPrefijo b (sin_acentos p.1) || listaPrefijo (sin_acentos p.1) b) then
      eligeAux maxT t bases ac
    else if maxT ≤ ac.length + 1 then (p.1 :: ac).reverse
    else eligeAux maxT t (sin_acentos p.1 :: bases) (p.1 :: ac)

/-- The `elegidos` list of the tier-2 fallback. -/
def elegidosDe (cols : List (List Char × Col)) (maxT : Nat) : List (List Char) :=
  eligeAux maxT (ordenaPor mayorGram (cntDe cols)) [] []

/-- Lexicographic (code-point) comparison of Python string sorting. -/
def lexLt : List Char → List Char → Bool
  | [], [] => false
  | [], _ :: _ => true
  | _ :: _, [] => false
  | a :: as, b :: bs => Nat.blt a.toNat b.toNat || (a == b && lexLt as bs)

/-- Decimal digits of a number, fuel-driven (`n / 10 < n` for `n > 0`, so
fuel `n` suffices). -/
def natDecAux : Nat → Nat → List Char → List Char
  | _, 0, acc => acc
  | 0, _, acc => acc
  | fuel + 1, n, acc => natDecAux fuel (n / 10) (Char.ofNat (48 + n % 10) :: acc)

/-- Python `str(n)` for a natural number. -/
def natDec (n : Nat) : List Char :=
  if n = 0 then [Char.ofNat 48] else natDecAux n n []

/-- Letters of the alphabet used by this program (for `str.title`). -/
def esLetra (c : Char) : Bool :=
  ('A' ≤ c && c ≤ 'Z') || ('a' ≤ c && c ≤ 'z') || (cad "ÁÉÍÓÚÜÑáéíóúüñ").contains c

/-- Python `str.title`: a letter is uppercased after a non-letter and
lowercased after a letter. -/
def tituloAux : Bool → List Char → List Char
  | _, [] => []
  | prev, c :: rest =>
    (if esLetra c then (if prev then minusChar c else mayusChar c) else c) ::
      tituloAux (esLetra c) rest

/-- Python `g.title()`. -/
def titulo (l : List Char) : List Char := tituloAux false l

/-- The tier-1 ranking comparison: number of distinct matching columns,
greater first. -/
def mayorTema1 (p q : List Char × List (List Char) × List (List Char)) : Bool :=
  decide (q.2.1.length < p.2.1.length)

/-- One output line of tier 1:
`f"{label} (menciones: {menc}) — medios: {meds}"`. -/
def formatoTema1 (p : List Char × List (List Char) × List (List Char)) : List Char :=
  p.1 ++ cad " (menciones: " ++ natDec p.2.1.length ++ cad ") — medios: " ++
    List.intercalate (cad ", ") ((ordenaPor (fun a b => lexLt a b) p.2.2).take 4)

/-- `extraer_temas` from main.py. -/
def extraer_temas (items : List Item) (max_temas : Nat) : List (List Char) :=
  if !(tier1De (colsDe items)).isEmpty then
    ((ordenaPor mayorTema1 (tier1De (colsDe items))).take max_temas).map formatoTema1
  else if (cntDe (colsDe items)).isEmpty then []
  else
    (elegidosDe (colsDe items) max_temas).map
      (fun g =>
        titulo g ++ cad " (menciones: " ++ natDec (buscaCnt (cntDe (colsDe items)) g) ++
        cad ") — medios: " ++
        List.intercalate (cad ", ")
          ((ordenaPor (fun a b => lexLt a b) (temaEnMedio (colsDe items) g)).take 4))

/-! ### General lemmas about the embedding -/

theorem contiene_iff {α} [BEq α] [LawfulBEq α] (l : List α) (x : α) :
    l.contains x = true ↔ x ∈ l := List.elem_iff

theorem listaPrefijo_mem (p s : List Char) (h : listaPrefijo p s = true) :
    ∀ c ∈ p, c ∈ s := by
  induction p generalizing s with
  | nil => simp
  | cons a as ih =>
    cases s with
    | nil => simp [listaPrefijo] at h
    | cons b bs =>
      simp [listaPrefijo] at h
      intro c hc
      rcases List.mem_cons.mp hc with hc | hc
      · simp [hc, h.1]
      · exact List.mem_cons_of_mem _ (ih bs h.2 c hc)

theorem urlsAuxF_sin_diagonal : ∀ (fuel : Nat) (s : List Char), '/' ∉ s → urlsAuxF fuel s = [] := by
  intro fuel
  induction fuel with
  | zero => intro s _; cases s <;> simp [urlsAuxF]
  | succ n ih =>
    intro s h
    cases s with
    | nil => simp [urlsAuxF]
    | cons c rest =>
      have hp1 : listaPrefijo (cad "https://") (c :: rest) = false := by
        cases hq : listaPrefijo (cad "https://") (c :: rest) with
        | false => rfl
        | true => exact absurd (listaPrefijo_mem _ _ hq '/' (by decide)) h
      have hp2 : listaPrefijo (cad "http://") (c :: rest) = false := by
        cases hq : listaPrefijo (cad "http://") (c :: rest) with
        | false => rfl
        | true => exact absurd (listaPrefijo_mem _ _ hq '/' (by decide)) h
      have hres : '/' ∉ rest := fun hm => h (List.mem_cons_of_mem _ hm)
      simp [urlsAuxF, hp1, hp2, ih rest hres]

theorem urlsAux_sin_diagonal (s : List Char) (h : '/' ∉ s) : urlsAux s = [] :=
  urlsAuxF_sin_diagonal s.length s h

theorem ultimaUrl_diagonal (texto : List Char) (h : ultimaUrl texto ≠ []) :
    texto.contains '/' = true := by
  by_cases hm : '/' ∈ texto
  · exact (contiene_iff texto '/').mpr hm
  · exact absurd (by simp [ultimaUrl, urlsAux_sin_diagonal texto hm]) h

theorem hash_columna_long (l : List Char) : (hash_columna l).length = 40 := by
  simp [hash_columna, sha1hex, hex8]

/-- The three guarded shapes of `parse_message`: nothing, or exactly one item
keyed by the hash of the last URL. -/
theorem parse_message_forma (texto : List Char) (ahora : Nat) :
    parse_message texto ahora = [] ∨
      ∃ it, parse_message texto ahora = [it] ∧
        it.col_id = hash_columna (ultimaUrl texto) := by
  unfold parse_message
  split
  · exact Or.inl rfl
  split
  · exact Or.inl rfl
  split
  · exact Or.inl rfl
  · exact Or.inr ⟨_, rfl, rfl⟩

theorem parse_message_url (texto : List Char) (ahora : Nat)
    (h : parse_message texto ahora ≠ []) : ultimaUrl texto ≠ [] := by
  intro hu
  apply h
  simp [parse_message, hu]

/-! ### C1 — severity priority -/

/-- Presence of a severity marker in a text; the alert marker counts as
present when either `⚠️` or the bare `⚠` occurs (as in `detectar_color`). -/
def marcadorPresente (m texto : List Char) : Bool :=
  if m == cad "⚠️" then subcadena (cad "⚠️") texto || subcadena (cad "⚠") texto
  else subcadena m texto

/-- The priority order actually implemented by `detectar_color`: negative 🔴,
then alert ⚠️, then positive 🟢, then neutral 🟡. -/
def prioridadColores : List (List Char) := [cad "🔴", cad "⚠️", cad "🟢", cad "🟡"]

/-- C1 (amended): `detectar_color` returns the first marker of the priority
list `🔴 (negative) > ⚠️ (alert) > 🟢 (positive) > 🟡 (neutral)` that is
present anywhere in the text, and `🟡` (neutral) when none is present —
not the order alert > negative > neutral > positive stated in the claim. -/
theorem c1_teorema (texto : List Char) :
    detectar_color texto =
      (prioridadColores.filter (fun m => marcadorPresente m texto)).headD (cad "🟡") := by
  have e1 : (cad "🔴" == cad "⚠️") = false := by decide
  have e2 : (cad "⚠️" == cad "⚠️") = true := by decide
  have e3 : (cad "🟢" == cad "⚠️") = false := by decide
  have e4 : (cad "🟡" == cad "⚠️") = false := by decide
  cases hr : subcadena (cad "🔴") texto <;>
    cases hw1 : subcadena (cad "⚠️") texto <;>
      cases hw2 : subcadena (cad "⚠") texto <;>
        cases hg : subcadena (cad "🟢") texto <;>
          cases hy : subcadena (cad "🟡") texto <;>
            simp [detectar_color, prioridadColores, marcadorPresente, List.filter,
                  e1, e2, e3, e4, hr, hw1, hw2, hg, hy]

/-- C1 counterexample: a text containing both the negative marker 🔴 and the
alert marker ⚠️ classifies as 🔴 (negative), not ⚠️ (alert) as the claim's
priority order would demand. -/
theorem c1_contra :
    marcadorPresente (cad "⚠️") (cad "🔴 nota ⚠️") = true ∧
    marcadorPresente (cad "🔴") (cad "🔴 nota ⚠️") = true ∧
    detectar_color (cad "🔴 nota ⚠️") = cad "🔴" ∧
    detectar_color (cad "🔴 nota ⚠️") ≠ cad "⚠️" := by decide

/-! ### C5 — the dedup key is a hash of the URL, not the URL -/

/-- C5 (amended): every item produced by `parse_message` has as `col_id` the
SHA-1 hex digest (40 characters) of the post's trailing URL — a hash of the
URL, not the URL verbatim. -/
theorem c5_teorema (texto : List Char) (ahora : Nat) :
    (parse_message texto ahora).all
      (fun it => it.col_id == hash_columna (ultimaUrl texto) &&
                 decide (it.col_id.length = 40)) = true := by
  unfold parse_message
  split
  · rfl
  split
  · rfl
  split
  · rfl
  · simp [hash_columna_long]

/-- C5 counterexample: for a concrete post the stored dedup key differs from
the trailing URL (it is the 40-character SHA-1 digest instead). -/
theorem c5_contra :
    (parse_message (cad "🟡 A / B\nhttps://e.co/x") 0).length = 1 ∧
    ultimaUrl (cad "🟡 A / B\nhttps://e.co/x") = cad "https://e.co/x" ∧
    (parse_message (cad "🟡 A / B\nhttps://e.co/x") 0).map Item.col_id ≠
      [ultimaUrl (cad "🟡 A / B\nhttps://e.co/x")] := by decide

/-! ### C6 — posts without a URL are dropped, no fallback digest exists -/

/-- C6 (amended): a post without any URL produces no Entry at all — there is
no fallback content digest; `parse_message` returns nothing and the store is
unchanged. -/
theorem c6_teorema (texto : List Char) (ahora : Nat) (s : List Item)
    (h : ultimaUrl texto = []) :
    parse_message texto ahora = [] ∧ recibir s texto ahora = s := by
  have hp : parse_message texto ahora = [] := by
    simp [parse_message, h]
  refine ⟨hp, ?_⟩
  simp [recibir, hp]

/-- C6 witness for `c6_teorema`. -/
theorem c6_testigo :
    ultimaUrl (cad "🟡 B / C\ntexto sin liga") = [] ∧
    (parse_message (cad "🟡 B / C\ntexto sin liga") 0 = [] ∧
     recibir [] (cad "🟡 B / C\ntexto sin liga") 0 = []) :=
  ⟨by decide, c6_teorema _ 0 [] (by decide)⟩

/-- C6 counterexample: a post with a valid two-token header but no URL is not
ingested at all (the claim asserts an Entry with a digest key is stored). -/
theorem c6_contra :
    2 ≤ (tokensHeader (headerDe (cad "🟡 A / B\nsin enlace aqui"))).length ∧
    ultimaUrl (cad "🟡 A / B\nsin enlace aqui") = [] ∧
    parse_message (cad "🟡 A / B\nsin enlace aqui") 0 = [] ∧
    recibir [] (cad "🟡 A / B\nsin enlace aqui") 0 = [] := by decide

/-! ### C2 — short headers: the post is dropped only when it has no URL -/

/-- C2 (amended): for a post whose cleaned first line yields fewer than 2
slash-delimited tokens, `parse_message` returns nothing **iff** the cleaned
first line is blank or the post contains no URL; when a URL is present an
Entry is produced (and stored) despite the failed header.  Without a URL the
store is unchanged. -/
theorem c2_teorema (texto : List Char) (ahora : Nat) (s : List Item)
    (_htk : (tokensHeader (headerDe texto)).length < 2) :
    (parse_message texto ahora = [] ↔ (headerDe texto = [] ∨ ultimaUrl texto = [])) ∧
    (ultimaUrl texto = [] → recibir s texto ahora = s) := by
  have principal :
      parse_message texto ahora = [] ↔ (headerDe texto = [] ∨ ultimaUrl texto = []) := by
    constructor
    · intro hp
      by_cases hh : headerDe texto = []
      · exact Or.inl hh
      by_cases hu : ultimaUrl texto = []
      · exact Or.inr hu
      by_cases ht : texto = []
      · exact Or.inl (by rw [ht]; rfl)
      · simp [parse_message, ht, hh, hu] at hp
    · intro hor
      rcases hor with hh | hu
      · by_cases ht : texto = []
        · simp [parse_message, ht]
        · simp [parse_message, ht, hh]
      · simp [parse_message, hu]
  refine ⟨principal, fun hu => ?_⟩
  have hp : parse_message texto ahora = [] := principal.mpr (Or.inr hu)
  simp [recibir, hp]

/-- C2 witness for `c2_teorema`. -/
theorem c2_testigo :
    (tokensHeader (headerDe (cad "solo texto plano"))).length < 2 ∧
    ((parse_message (cad "solo texto plano") 0 = [] ↔
        (headerDe (cad "solo texto plano") = [] ∨ ultimaUrl (cad "solo texto plano") = [])) ∧
     (ultimaUrl (cad "solo texto plano") = [] → recibir [] (cad "solo texto plano") 0 = [])) :=
  ⟨by decide, c2_teorema _ 0 [] (by decide)⟩

/-- C2 counterexample: a post whose first line yields a single token but which
carries a URL **is** ingested — one Entry is produced and stored, contradicting
the claim that such posts are always dropped. -/
theorem c2_contra :
    (tokensHeader (headerDe (cad "hola\nhttps://x.com/a"))).length < 2 ∧
    (parse_message (cad "hola\nhttps://x.com/a") 0).length = 1 ∧
    (recibir [] (cad "hola\nhttps://x.com/a") 0).length = 1 := by decide

/-! ### C3 — the actors list of a stored Entry -/

/-- The successful branch of `parse_header` as an equation. -/
theorem parse_header_eq (header : List Char) (h : 2 ≤ (tokensHeader header).length) :
    parse_header header =
      ((if actoresDe (separaAlcance (coreTokens (tokensHeader header))).2 = []
        then [cad "OTROS DE INTERES"]
        else actoresDe (separaAlcance (coreTokens (tokensHeader header))).2),
       (separaAlcance (coreTokens (tokensHeader header))).1,
       normalizar_token ((tokensHeader header).getLastD [])) := by
  unfold parse_header
  split
  next hlt => exact absurd hlt (by omega)
  next => rfl

/-- A parsed header with at least 2 tokens never has an empty actor list. -/
theorem parse_header_fst_ne (header : List Char) (h : 2 ≤ (tokensHeader header).length) :
    (parse_header header).1 ≠ [] := by
  rw [parse_header_eq header h]
  split
  next => simp
  next hne => exact hne

/-- C3 (amended): every item produced by `parse_message` from a post whose
header parses (at least 2 slash-delimited tokens) has a non-empty `actors`
list (the sentinel is substituted when no actor chunk remains).  The invariant
fails only on the failed-header-with-URL path shown in `c3_contra`. -/
theorem c3_teorema (texto : List Char) (ahora : Nat)
    (htk : 2 ≤ (tokensHeader (headerDe texto)).length) :
    (parse_message texto ahora).all (fun it => !it.actors.isEmpty) = true := by
  have ha : (parse_header (headerDe texto)).1 ≠ [] := parse_header_fst_ne _ htk
  unfold parse_message
  split
  · rfl
  split
  · rfl
  split
  · rfl
  · cases hl : (parse_header (headerDe texto)).1 with
    | nil => exact absurd hl ha
    | cons a as => simp [hl]

/-- C3 witness for `c3_teorema`. -/
theorem c3_testigo :
    2 ≤ (tokensHeader (headerDe (cad "🟡 A / B\nhttps://x.com/a"))).length ∧
    (parse_message (cad "🟡 A / B\nhttps://x.com/a") 0).all
      (fun it => !it.actors.isEmpty) = true :=
  ⟨by decide, c3_teorema _ 0 (by decide)⟩

/-- C3 counterexample: a post whose header fails to parse but which carries a
URL is stored with an **empty** actors list — no sentinel is substituted on
this path, contradicting the claimed invariant. -/
theorem c3_contra :
    (recibir [] (cad "adios\nhttps://y.com/b") 0).map Item.actors = [[]] := by decide

/-! ### C10 — actors come only from the tokens strictly between first and last -/

/-- C10: for every header with at least 2 tokens, (i) the actor list depends
only on the token list without its first element (so the first token never
contributes an actor), (ii) a 2-token header yields the sentinel actor list,
and (iii) a 3-token header whose middle token normalizes into the scope
catalog also yields the sentinel actor list. -/
theorem c10_teorema (h1 h2 : List Char) (hl : 2 ≤ (tokensHeader h1).length) :
    ((tokensHeader h2).length = (tokensHeader h1).length →
       (tokensHeader h2).tail = (tokensHeader h1).tail →
       (parse_header h2).1 = (parse_header h1).1) ∧
    ((tokensHeader h1).length = 2 → (parse_header h1).1 = [cad "OTROS DE INTERES"]) ∧
    ((tokensHeader h1).length = 3 →
       ALCANCE_CATALOG.contains (normalizar_token ((tokensHeader h1).getD 1 [])) = true →
       (parse_header h1).1 = [cad "OTROS DE INTERES"]) := by
  refine ⟨?_, ?_, ?_⟩
  · intro hlen htail
    rw [parse_header_eq h1 hl, parse_header_eq h2 (by omega)]
    have hc : coreTokens (tokensHeader h2) = coreTokens (tokensHeader h1) := by
      unfold coreTokens
      rw [List.drop_one, List.drop_one, htail]
    rw [hc]
  · intro h2len
    obtain ⟨a, b, hab⟩ := List.length_eq_two.mp h2len
    rw [parse_header_eq h1 hl, hab]
    simp [coreTokens, separaAlcance, actoresDe]
  · intro h3len hcat
    obtain ⟨a, b, c, habc⟩ := List.length_eq_three.mp h3len
    rw [habc] at hcat
    have hb : normalizar_token b ∈ ALCANCE_CATALOG := by
      have hm := (contiene_iff _ _).mp hcat
      simpa [List.getD] using hm
    rw [parse_header_eq h1 hl, habc]
    simp [coreTokens, separaAlcance, actoresDe, hb]

/-- C10 witness for `c10_teorema`: a 3-token header whose middle token is the
catalog scope word `ESTATAL` yields the sentinel actor list (the first token,
a person's name, contributes no actor). -/
theorem c10_testigo :
    2 ≤ (tokensHeader (cad "🟡 JUAN PEREZ / ESTATAL / EL DIARIO")).length ∧
    (parse_header (cad "🟡 JUAN PEREZ / ESTATAL / EL DIARIO")).1 = [cad "OTROS DE INTERES"] :=
  ⟨by decide,
   (c10_teorema (cad "🟡 JUAN PEREZ / ESTATAL / EL DIARIO")
      (cad "🟡 JUAN PEREZ / ESTATAL / EL DIARIO") (by decide)).2.2 (by decide) (by decide)⟩

/-! ### C4 — dedup on the trailing URL -/

theorem cuentaClave_append (s l : List Item) (k : List Char) :
    cuentaClave (s ++ l) k = cuentaClave s k + cuentaClave l k := by
  simp [cuentaClave, List.filter_append]

theorem cuentaClave_cero_iff (s : List Item) (k : List Char) :
    cuentaClave s k = 0 ↔ ∀ it ∈ s, it.col_id ≠ k := by
  simp [cuentaClave, List.length_eq_zero, List.filter_eq_nil_iff]

theorem cuentaClave_pos_mem (s : List Item) (k : List Char) (h : cuentaClave s k ≠ 0) :
    k ∈ s.map Item.col_id := by
  by_contra hk
  apply h
  rw [cuentaClave_cero_iff]
  intro it hit he
  exact hk (he ▸ List.mem_map_of_mem Item.col_id hit)

theorem parse_message_corta (texto : List Char) (ahora : Nat) :
    (parse_message texto ahora).length ≤ 1 := by
  unfold parse_message
  split
  · simp
  split
  · simp
  split
  · simp
  · simp

/-- A post that parses to nothing leaves the store unchanged. -/
theorem recibir_vacio (s : List Item) (texto : List Char) (ahora : Nat)
    (hp : parse_message texto ahora = []) : recibir s texto ahora = s := by
  simp [recibir, hp]

/-- Ingesting any post never changes the count of a key already present. -/
theorem recibir_ya (s : List Item) (texto : List Char) (ahora : Nat) (k : List Char)
    (h : cuentaClave s k ≠ 0) :
    cuentaClave (recibir s texto ahora) k = cuentaClave s k := by
  unfold recibir
  split
  · rfl
  · rw [cuentaClave_append]
    have hfil :
        cuentaClave ((parse_message texto ahora).filter
          (fun it => !(s.map Item.col_id).contains it.col_id)) k = 0 := by
      rw [cuentaClave_cero_iff]
      intro it hit he
      have hP := List.of_mem_filter hit
      have hin : k ∈ s.map Item.col_id := cuentaClave_pos_mem s k h
      rw [he] at hP
      rw [(contiene_iff (s.map Item.col_id) k).mpr hin] at hP
      simp at hP
    omega

/-- Ingesting a post that parses, into a store free of its key, stores exactly
one entry with that key. -/
theorem recibir_nuevo (s : List Item) (texto : List Char) (ahora : Nat)
    (h0 : cuentaClave s (hash_columna (ultimaUrl texto)) = 0)
    (hp : parse_message texto ahora ≠ []) :
    cuentaClave (recibir s texto ahora) (hash_columna (ultimaUrl texto)) = 1 := by
  have hu : ultimaUrl texto ≠ [] := parse_message_url _ _ hp
  have hsl : texto.contains '/' = true := ultimaUrl_diagonal _ hu
  rcases parse_message_forma texto ahora with hE | ⟨it, hit, hkey⟩
  · exact absurd hE hp
  · unfold recibir
    rw [if_neg (by rw [hsl]; decide)]
    rw [cuentaClave_append, h0, hit]
    have hnm : (s.map Item.col_id).contains it.col_id = false := by
      rw [hkey]
      cases hc : (s.map Item.col_id).contains (hash_columna (ultimaUrl texto)) with
      | false => rfl
      | true =>
        exfalso
        rcases List.mem_map.mp ((contiene_iff _ _).mp hc) with ⟨it2, hit2, he2⟩
        exact (cuentaClave_cero_iff s _).mp h0 it2 hit2 he2
    have hPit : (!(s.map Item.col_id).contains it.col_id) = true := by
      rw [hnm]
      rfl
    have hfil : List.filter (fun x : Item => !(s.map Item.col_id).contains x.col_id) [it] = [it] := by
      rw [List.filter_cons, if_pos hPit]
      rfl
    rw [hfil]
    unfold cuentaClave
    rw [List.filter_cons, if_pos (by rw [hkey]; exact beq_self_eq_true _)]
    rfl

/-- C4 (amended): two posts sharing the same trailing URL leave **at most**
one stored Entry with that dedup key (starting from a store free of the key),
and **exactly** one provided at least one of the two posts actually parses;
a pair of degenerate posts (blank cleaned first line) stores nothing, which is
the case `c4_contra` exhibits against the claim as stated. -/
theorem c4_teorema (s : List Item) (t1 t2 : List Char) (a1 a2 : Nat) (u : List Char)
    (hu1 : ultimaUrl t1 = u) (hu2 : ultimaUrl t2 = u)
    (h0 : cuentaClave s (hash_columna u) = 0) :
    cuentaClave (recibir (recibir s t1 a1) t2 a2) (hash_columna u) ≤ 1 ∧
    ((parse_message t1 a1 ≠ [] ∨ parse_message t2 a2 ≠ []) →
      cuentaClave (recibir (recibir s t1 a1) t2 a2) (hash_columna u) = 1) := by
  subst hu1
  by_cases hp1 : parse_message t1 a1 = []
  · rw [recibir_vacio s t1 a1 hp1]
    by_cases hp2 : parse_message t2 a2 = []
    · rw [recibir_vacio s t2 a2 hp2]
      exact ⟨by omega, fun hor => by rcases hor with h | h <;> contradiction⟩
    · have h1 : cuentaClave (recibir s t2 a2) (hash_columna (ultimaUrl t2)) = 1 :=
        recibir_nuevo s t2 a2 (by rw [hu2]; exact h0) hp2
      rw [hu2] at h1
      exact ⟨by omega, fun _ => h1⟩
  · have h1 : cuentaClave (recibir s t1 a1) (hash_columna (ultimaUrl t1)) = 1 :=
      recibir_nuevo s t1 a1 h0 hp1
    have h2 : cuentaClave (recibir (recibir s t1 a1) t2 a2) (hash_columna (ultimaUrl t1)) =
        cuentaClave (recibir s t1 a1) (hash_columna (ultimaUrl t1)) :=
      recibir_ya _ t2 a2 _ (by omega)
    exact ⟨by omega, fun _ => by omega⟩

/-- C4 witness for `c4_teorema`: two differently worded posts sharing one URL
collapse to exactly one stored entry. -/
theorem c4_testigo :
    ultimaUrl (cad "🔴 A / B\nhttps://x.com/a") = cad "https://x.com/a" ∧
    ultimaUrl (cad "A / C\notras palabras\nhttps://x.com/a") = cad "https://x.com/a" ∧
    cuentaClave [] (hash_columna (cad "https://x.com/a")) = 0 ∧
    cuentaClave (recibir (recibir [] (cad "🔴 A / B\nhttps://x.com/a") 0)
        (cad "A / C\notras palabras\nhttps://x.com/a") 1)
      (hash_columna (cad "https://x.com/a")) = 1 :=
  ⟨by decide, by decide, rfl,
   (c4_teorema [] (cad "🔴 A / B\nhttps://x.com/a") (cad "A / C\notras palabras\nhttps://x.com/a")
      0 1 (cad "https://x.com/a") (by decide) (by decide) rfl).2 (Or.inl (by decide))⟩

/-- C4 counterexample: two posts sharing the same trailing URL whose first
line cleans to blank are both discarded — the store ends with **zero** entries
for that dedup key, not exactly one as the claim states for every such pair. -/
theorem c4_contra :
    ultimaUrl (cad "-\nhttps://x.com/a") = cad "https://x.com/a" ∧
    cuentaClave (recibir (recibir [] (cad "-\nhttps://x.com/a") 0)
        (cad "-\nhttps://x.com/a") 1) (hash_columna (cad "https://x.com/a")) = 0 :=
  ⟨by decide, rfl⟩

/-! ### C8 — actor ranking order -/

theorem mem_insertaPor {α} (mayor : α → α → Bool) (x : α) (l : List α) (y : α) :
    y ∈ insertaPor mayor x l ↔ y = x ∨ y ∈ l := by
  induction l with
  | nil => simp [insertaPor]
  | cons a as ih =>
    unfold insertaPor
    split
    next =>
      rw [List.mem_cons, ih, List.mem_cons]
      tauto
    next =>
      simp [List.mem_cons]

theorem mem_ordenaPor {α} (mayor : α → α → Bool) (l : List α) (y : α) :
    y ∈ ordenaPor mayor l ↔ y ∈ l := by
  induction l with
  | nil => simp [ordenaPor]
  | cons a as ih =>
    show y ∈ insertaPor mayor a (ordenaPor mayor as) ↔ _
    rw [mem_insertaPor, ih, List.mem_cons]

theorem pairwise_insertaPor {α} (mayor : α → α → Bool)
    (hA : ∀ a b, mayor a b = true → mayor b a = false)
    (hT : ∀ a b c, mayor b a = false → mayor c b = false → mayor c a = false)
    (x : α) (l : List α) (h : l.Pairwise (fun a b => mayor b a = false)) :
    (insertaPor mayor x l).Pairwise (fun a b => mayor b a = false) := by
  induction l with
  | nil => simp [insertaPor]
  | cons y ys ih =>
    rcases List.pairwise_cons.mp h with ⟨hy, hys⟩
    unfold insertaPor
    split
    next hmx =>
      refine List.pairwise_cons.mpr ⟨?_, ih hys⟩
      intro b hb
      rcases (mem_insertaPor mayor x ys b).mp hb with rfl | hbys
      · exact hA y b hmx
      · exact hy b hbys
    next hmx =>
      have hmx2 : mayor y x = false := (Bool.not_eq_true _).mp hmx
      refine List.pairwise_cons.mpr ⟨?_, h⟩
      intro b hb
      rcases List.mem_cons.mp hb with rfl | hbys
      · exact hmx2
      · exact hT x y b hmx2 (hy b hbys)

theorem pairwise_ordenaPor {α} (mayor : α → α → Bool)
    (hA : ∀ a b, mayor a b = true → mayor b a = false)
    (hT : ∀ a b c, mayor b a = false → mayor c b = false → mayor c a = false)
    (l : List α) :
    (ordenaPor mayor l).Pairwise (fun a b => mayor b a = false) := by
  induction l with
  | nil => simp [ordenaPor]
  | cons a as ih => exact pairwise_insertaPor mayor hA hT a _ ih

theorem mayorActor_asim (x y : Cuentas) (h : mayorActor x y = true) :
    mayorActor y x = false := by
  simp [mayorActor] at *
  omega

theorem mayorActor_trans (x y b : Cuentas) (h1 : mayorActor y x = false)
    (h2 : mayorActor b y = false) : mayorActor b x = false := by
  simp [mayorActor] at *
  omega

/-- C8 (amended): the actor block of the report is `top_actores`, which sorts
the per-actor tallies by the key `(total, 🔴 count, ⚠️ count)` in descending
lexicographic order — **not** alphabetically on ties of the total — keeps
equal keys in first-appearance order (stable sort), and truncates to the
requested `limite` (6 in `generar_resumen`). -/
theorem c8_teorema (items : List Item) (limite : Nat) :
    (top_actores items limite).Pairwise (fun p q => mayorActor q.2 p.2 = false) ∧
    (top_actores items limite).length ≤ limite := by
  constructor
  · have hp := pairwise_ordenaPor (fun p q : List Char × Cuentas => mayorActor p.2 q.2)
      (fun a b h => mayorActor_asim _ _ h)
      (fun a b c h1 h2 => mayorActor_trans _ _ _ h1 h2)
      (acumulaActores items)
    exact hp.sublist (List.take_sublist _ _)
  · exact List.length_take_le _ _

/-- C8 counterexample: two actors with the same total (1 each) are listed with
`ZETA` (one 🔴 mention) before `ALFA` (one 🟡 mention): the tie on totals is
broken by the 🔴 count, not alphabetically as the claim states (`ALFA` sorts
before `ZETA`). -/
theorem c8_contra :
    (top_actores
        [⟨cad "a1", 0, cad "🔴", [cad "ZETA"], [], cad "M1", [], []⟩,
         ⟨cad "a2", 0, cad "🟡", [cad "ALFA"], [], cad "M2", [], []⟩] 6).map Prod.fst =
      [cad "ZETA", cad "ALFA"] ∧
    (acumulaActores
        [⟨cad "a1", 0, cad "🔴", [cad "ZETA"], [], cad "M1", [], []⟩,
         ⟨cad "a2", 0, cad "🟡", [cad "ALFA"], [], cad "M2", [], []⟩]).map
      (fun p => p.2.total) = [1, 1] ∧
    lexLt (cad "ALFA") (cad "ZETA") = true := by decide

/-! ### C9 — outlet list -/

theorem mediosAux_fuera (items : List Item) : ∀ vistos : List (List Char),
    (∀ x ∈ mediosAux items vistos, x ∉ vistos) ∧ (mediosAux items vistos).Nodup := by
  induction items with
  | nil => intro vistos; simp [mediosAux]
  | cons it rest ih =>
    intro vistos
    unfold mediosAux
    split
    next => exact ih vistos
    next =>
      split
      next => exact ih vistos
      next =>
        split
        next => exact ih vistos
        next hnc =>
          obtain ⟨h1, h2⟩ := ih (it.medio :: vistos)
          constructor
          · intro x hx
            rcases List.mem_cons.mp hx with rfl | hx2
            · intro hxv
              exact hnc ((contiene_iff _ _).mpr hxv)
            · intro hxv
              exact (h1 x hx2) (List.mem_cons_of_mem _ hxv)
          · refine List.nodup_cons.mpr ⟨?_, h2⟩
            intro hm
            exact (h1 _ hm) (List.mem_cons_self _ _)

theorem mediosAux_sin_medio (items : List Item) : ∀ vistos : List (List Char),
    cad "SIN MEDIO" ∈ mediosAux items vistos →
      vistos = [] ∧ (mediosAux items vistos).head? = some (cad "SIN MEDIO") := by
  induction items with
  | nil => intro vistos h; simp [mediosAux] at h
  | cons it rest ih =>
    intro vistos
    unfold mediosAux
    split
    next => exact ih vistos
    next =>
      split
      next hs2 =>
        intro h
        obtain ⟨hv, _⟩ := ih vistos h
        subst hv
        simp at hs2
      next hs2 =>
        split
        next hmem =>
          intro h
          obtain ⟨hv, _⟩ := ih vistos h
          subst hv
          simp [List.contains] at hmem
        next hnmem =>
          intro h
          rcases List.mem_cons.mp h with heq | hmem2
          · constructor
            · have hbeq : (it.medio == cad "SIN MEDIO") = true := by
                rw [← heq]
                exact beq_self_eq_true _
              cases hvi : vistos.isEmpty with
              | true => exact List.isEmpty_iff.mp hvi
              | false =>
                exfalso
                apply hs2
                simp [hbeq, hvi]
            · simp [← heq]
          · obtain ⟨hv, _⟩ := ih (it.medio :: vistos) hmem2
            exact absurd hv (by simp)

/-- C9 (amended): the outlet list contains each outlet at most once (in order
of first appearance, not alphabetically), and the sentinel `SIN MEDIO` can
only occur as the **first** element — it is skipped only when some outlet was
seen before it, regardless of later real outlets (see `c9_contra`). -/
theorem c9_teorema (items : List Item) :
    (medios_con_publicacion items).Nodup ∧
    (cad "SIN MEDIO" ∈ medios_con_publicacion items →
      (medios_con_publicacion items).head? = some (cad "SIN MEDIO")) := by
  exact ⟨(mediosAux_fuera items []).2, fun h => (mediosAux_sin_medio items [] h).2⟩

/-- C9 witness for `c9_teorema`. -/
theorem c9_testigo :
    cad "SIN MEDIO" ∈ medios_con_publicacion
        [⟨cad "s1", 0, cad "🟡", [cad "X"], [], cad "SIN MEDIO", [], []⟩] ∧
    (medios_con_publicacion
        [⟨cad "s1", 0, cad "🟡", [cad "X"], [], cad "SIN MEDIO", [], []⟩]).head? =
      some (cad "SIN MEDIO") :=
  ⟨by decide, (c9_teorema _).2 (by decide)⟩

/-- C9 counterexample: when the sentinel entry is ingested first, the outlet
list is `["SIN MEDIO", "EL DIARIO"]` — the sentinel is present although a real
outlet is in the subset, and the list is not alphabetical (`"EL DIARIO"` sorts
before `"SIN MEDIO"`). -/
theorem c9_contra :
    medios_con_publicacion
        [⟨cad "s1", 0, cad "🟡", [cad "X"], [], cad "SIN MEDIO", [], []⟩,
         ⟨cad "s2", 0, cad "🟡", [cad "X"], [], cad "EL DIARIO", [], []⟩] =
      [cad "SIN MEDIO", cad "EL DIARIO"] ∧
    lexLt (cad "EL DIARIO") (cad "SIN MEDIO") = true := by decide

/-! ### C7 — tier-2 support counts -/

theorem incCnt_vals (l : List (List Char × Nat)) (g : List Char)
    (h : ∀ p ∈ l, 1 ≤ p.2) : ∀ p ∈ incCnt l g, 1 ≤ p.2 := by
  intro p hp
  unfold incCnt at hp
  split at hp
  · rcases List.mem_map.mp hp with ⟨q, hq, he⟩
    by_cases hc : (q.1 == g) = true
    · rw [if_pos hc] at he
      rw [← he]
      have := h q hq
      omega
    · rw [if_neg hc] at he
      rw [← he]
      exact h q hq
  · rcases List.mem_append.mp hp with hl | hr
    · exact h p hl
    · rw [List.mem_singleton.mp hr]

theorem foldl_incCnt_vals (gs : List (List Char)) :
    ∀ acc, (∀ p ∈ acc, 1 ≤ p.2) → ∀ p ∈ gs.foldl incCnt acc, 1 ≤ p.2 := by
  induction gs with
  | nil => intro acc h; exact h
  | cons g gs ih => intro acc h; exact ih _ (incCnt_vals acc g h)

theorem cntDe_fold_vals (cols : List (List Char × Col)) :
    ∀ acc, (∀ p ∈ acc, 1 ≤ p.2) →
      ∀ p ∈ cols.foldl (fun acc p => ((gramsFiltrados p.2).eraseDups).foldl incCnt acc) acc,
        1 ≤ p.2 := by
  induction cols with
  | nil => intro acc h; exact h
  | cons c cs ih => intro acc h; exact ih _ (foldl_incCnt_vals _ acc h)

/-- Every value of the tier-2 counter is at least 1. -/
theorem cntDe_vals (cols : List (List Char × Col)) : ∀ p ∈ cntDe cols, 1 ≤ p.2 :=
  cntDe_fold_vals cols [] (by simp)

theorem buscaCnt_pos (cnt : List (List Char × Nat)) (g : List Char)
    (hvals : ∀ p ∈ cnt, 1 ≤ p.2) (hmem : g ∈ cnt.map Prod.fst) :
    1 ≤ buscaCnt cnt g := by
  unfold buscaCnt
  cases hf : cnt.find? (fun p => p.1 == g) with
  | some p => exact hvals p (List.mem_of_find?_eq_some hf)
  | none =>
    exfalso
    rcases List.mem_map.mp hmem with ⟨q, hq, he⟩
    have hs : (cnt.find? (fun p => p.1 == g)).isSome := by
      rw [List.find?_isSome]
      exact ⟨q, hq, by simp [he]⟩
    rw [hf] at hs
    simp at hs

/-- Every phrase selected by the greedy loop comes from the candidate list
(or the accumulator it started with). -/
theorem mem_eligeAux (maxT : Nat) :
    ∀ (top : List (List Char × Nat)) (bases ac : List (List Char)) (g : List Char),
      g ∈ eligeAux maxT top bases ac → g ∈ top.map Prod.fst ∨ g ∈ ac := by
  intro top
  induction top with
  | nil =>
    intro bases ac g hg
    right
    exact List.mem_reverse.mp hg
  | cons p t ih =>
    intro bases ac g hg
    unfold eligeAux at hg
    split at hg
    next =>
      rcases ih _ _ _ hg with h | h
      · left
        rw [List.map_cons]
        exact List.mem_cons_of_mem _ h
      · right
        exact h
    next =>
      split at hg
      next =>
        rcases List.mem_cons.mp (List.mem_reverse.mp hg) with rfl | h
        · left
          rw [List.map_cons]
          exact List.mem_cons_self _ _
        · right
          exact h
      next =>
        rcases ih _ _ _ hg with h | h
        · left
          rw [List.map_cons]
          exact List.mem_cons_of_mem _ h
        · rcases List.mem_cons.mp h with rfl | h2
          · left
            rw [List.map_cons]
            exact List.mem_cons_self _ _
          · right
            exact h2

/-- C7 (amended): when no tier-1 rule matches, every phrase returned by the
tier-2 fallback is supported by at least **1** distinct entry — the code has
no minimum-support-of-2 filter, and `c7_contra` shows a returned phrase with a
single supporting entry. -/
theorem c7_teorema (items : List Item) (maxT : Nat)
    (_h1 : tier1De (colsDe items) = []) :
    (elegidosDe (colsDe items) maxT).all
      (fun g => decide (1 ≤ buscaCnt (cntDe (colsDe items)) g)) = true := by
  rw [List.all_eq_true]
  intro g hg
  rw [decide_eq_true_eq]
  rcases mem_eligeAux maxT (ordenaPor mayorGram (cntDe (colsDe items))) [] [] g hg with hmem | hmem
  · have hg2 : g ∈ (cntDe (colsDe items)).map Prod.fst := by
      rcases List.mem_map.mp hmem with ⟨q, hq, he⟩
      exact he ▸ List.mem_map_of_mem _ ((mem_ordenaPor _ _ _).mp hq)
    exact buscaCnt_pos _ _ (cntDe_vals _) hg2
  · simp at hmem

/-- The single-entry batch used against C7: its only column has the document
text `OTROS DE INTERES REFORMA FRONTERIZA MIGRANTE`, no tier-1 rule matches,
and the tokens surviving the stopword filter are
`REFORMA FRONTERIZA MIGRANTE`. -/
def itemC7 : Item :=
  ⟨cad "c1", 0, cad "🟡", [cad "OTROS DE INTERES"], [], cad "EL DIARIO",
   cad "REFORMA FRONTERIZA MIGRANTE", cad "https://e.co/n1"⟩

/-- C7 witness for `c7_teorema`. -/
theorem c7_testigo :
    tier1De (colsDe [itemC7]) = [] ∧
    (elegidosDe (colsDe [itemC7]) 5).all
      (fun g => decide (1 ≤ buscaCnt (cntDe (colsDe [itemC7])) g)) = true :=
  ⟨by decide, c7_teorema [itemC7] 5 (by decide)⟩

/-- C7 counterexample: on a one-entry batch with no tier-1 match, the tier-2
fallback returns the phrase `REFORMA FRONTERIZA MIGRANTE` although it occurs
in only **one** entry (count 1), and the rendered topic line even displays
`menciones: 1` — contradicting the claimed minimum of 2 distinct entries. -/
theorem c7_contra :
    tier1De (colsDe [itemC7]) = [] ∧
    cad "REFORMA FRONTERIZA MIGRANTE" ∈ elegidosDe (colsDe [itemC7]) 5 ∧
    buscaCnt (cntDe (colsDe [itemC7])) (cad "REFORMA FRONTERIZA MIGRANTE") = 1 ∧
    extraer_temas [itemC7] 5 =
      [cad "Reforma Fronteriza Migrante (menciones: 1) — medios: EL DIARIO",
       cad "Fronteriza Migrante (menciones: 1) — medios: EL DIARIO"] := by decide
